import Mathlib

/-!
Shallow embedding of `src/app/services/evaluation.py` (`evaluate_all`), the
scoring/aggregation core of the IDA event-tagger evaluation service, together
with theorems checking the natural-language specification against it.

Modelling conventions:
* Python `Optional[str]` is `Option String`; Python truthiness of such a value
  (`if x:`) is `truthyStr`: both `None` and `""` are falsy.
* Python floats are modelled as exact rationals `ℚ`.
* Python dicts (`defaultdict(int)`) are association lists kept in insertion
  order, because `evaluate_all` later iterates `per_tag_total.items()` in
  insertion order (line 250) and sorts those items with Python's stable sort.
* Python `sorted` is specified to be a stable sort; it is embedded as
  `List.insertionSort`, which is stable (`List.sublist_insertionSort`) and
  computes by structural recursion.  Any two stable sorts with the same
  comparison agree extensionally, so this is the unique function Python's
  `sorted` denotes.
* `process_single_event` is an external collaborator: each `EvalItem` carries
  its ground-truth list and the predictor's outcome; `Except.error` models an
  exception raised by the call at line 90 and caught at line 142.
* The iteration order of the Python `set` at lines 120-128 is unspecified; it
  only influences the key insertion order of `tp/fp/fn_counts`, of which the
  program observes nothing but the value sums (lines 233-235).  The set is
  embedded as a duplicate-free list.
-/

namespace EventTagger

/-- One ground-truth entry: `{'tag': ..., 'priority': ...}` as produced by
`load_evaluation_data` (evaluation.py lines 341-345). -/
structure GroundTruthTag where
  tag : String
  priority : Nat
  deriving Repr, DecidableEq

/-- The predictor's tag triple (`response.tag_triple`, line 91): up to three
tags, best first, plus a confidence. Slots may be `None` or `""` in Python;
both are `Option.none`/`some ""` here. -/
structure TagTriple where
  tag1 : Option String
  tag2 : Option String
  tag3 : Option String
  confidence : ℚ
  deriving Repr, DecidableEq

/-- One dataset item paired with the outcome of `process_single_event` for it:
`Except.error msg` models a raised exception (caught at line 142). -/
structure EvalItem where
  ground_truth_tags : List GroundTruthTag
  prediction : Except String TagTriple
  deriving Repr

/-- Per-item result record (`EvaluationResult`, lines 154-167).  The
`arrangement_id`/`arrangement_title` metadata fields are omitted: they are
copied verbatim from the input and no claim mentions them. -/
structure EvaluationResult where
  predicted_tag1 : Option String
  predicted_tag2 : Option String
  predicted_tag3 : Option String
  predicted_confidence : ℚ
  ground_truth_tags : List String
  is_correct : Bool
  match_priority : Option Nat
  error_message : Option String
  deriving Repr, DecidableEq

/-- The metrics block (lines 261-275). -/
structure EvaluationMetrics where
  accuracy_at_1 : ℚ
  accuracy_at_2 : ℚ
  accuracy_at_3 : ℚ
  weighted_accuracy : ℚ
  exact_match_at_2 : ℚ
  exact_match_at_3 : ℚ
  precision : ℚ
  recall_score : ℚ
  f1_score : ℚ
  average_confidence : ℚ
  total_predictions : Nat
  correct_predictions : Nat
  deriving Repr, DecidableEq

/-- The response (lines 278-287); `evaluation_id`, `processing_time_ms` and
`timestamp` are run metadata outside every claim and are omitted. -/
structure EvaluationResponse where
  metrics : EvaluationMetrics
  results : List EvaluationResult
  most_confused_tags : List (String × Nat)
  best_performing_categories : List String
  worst_performing_categories : List String
  deriving Repr, DecidableEq

/-- Python truthiness of an `Optional[str]`: `None` and `""` are falsy. -/
def truthyStr : Option String → Bool
  | none => false
  | some s => !(s == "")

/-- `x or None` on an `Optional[str]` (lines 92-94). -/
def orNone (o : Option String) : Option String :=
  if truthyStr o then o else none

/-- `sorted(gt_list, key=lambda d: d["priority"])` (line 64): Python's stable
sort by ascending priority. -/
def sorted_gt (gts : List GroundTruthTag) : List GroundTruthTag :=
  List.insertionSort (fun a b => a.priority ≤ b.priority) gts

/-- Lines 65-69: the tag strings in priority order, padded with `None` up to
3 slots. -/
def padded_gt (gts : List GroundTruthTag) : List (Option String) :=
  let tags := (sorted_gt gts).map (fun g => some g.tag)
  tags ++ List.replicate (3 - tags.length) none

/-- The scan at lines 97-105: enumerate the padded slots from `start`,
skipping `None` entries, returning the index of the first slot equal to
`predicted_tag1`. -/
def find_match (p1 : Option String) : List (Option String) → Nat → Option Nat
  | [], _ => none
  | none :: rest, idx => find_match p1 rest (idx + 1)
  | some t :: rest, idx =>
      if p1 = some t then some idx else find_match p1 rest (idx + 1)

/-- `match_priority` of one item given the normalized `predicted_tag1`. -/
def match_rank_of (gts : List GroundTruthTag) (p1 : Option String) : Option Nat :=
  find_match p1 (padded_gt gts) 1

/-- `next((t for t in ground_truth_tags if t), None)` (line 114). -/
def first_truthy : List (Option String) → Option String
  | [] => none
  | o :: rest => if truthyStr o then o else first_truthy rest

/-- `[t for t in ground_truth_tags if t]` over the padded list (lines 121-124
and 162): the truthy tag strings in priority order. -/
def truthy_tags (gts : List GroundTruthTag) : List String :=
  (padded_gt gts).filterMap (fun o => if truthyStr o then o else none)

/-- `defaultdict(int)` increment by one, preserving key insertion order. -/
def bump : List (String × Nat) → String → List (String × Nat)
  | [], k => [(k, 1)]
  | (k', v) :: rest, k =>
      if k' = k then (k', v + 1) :: rest else (k', v) :: bump rest k

/-- `d.get(k, 0)` on such a dict. -/
def lookupD : List (String × Nat) → String → Nat
  | [], _ => 0
  | (k', v) :: rest, k => if k' = k then v else lookupD rest k

/-- `sum(d.values())`. -/
def sum_values (m : List (String × Nat)) : Nat :=
  (m.map Prod.snd).sum

/-- The set built at lines 120-126: all truthy ground-truth tags plus
`predicted_tag1` when truthy, without duplicates. -/
def all_tags_in_dataset (gts : List GroundTruthTag) (p1 : Option String) : List String :=
  (truthy_tags gts ++ (if truthyStr p1 then p1.toList else [])).dedup

/-- One step of the TP/FP/FN classification loop (lines 128-136). -/
def tpfpfn_update (padded : List (Option String)) (p1 : Option String)
    (cnts : List (String × Nat) × List (String × Nat) × List (String × Nat))
    (t : String) :
    List (String × Nat) × List (String × Nat) × List (String × Nat) :=
  let in_true := padded.contains (some t)
  let is_pred := some t == p1
  if is_pred && in_true then (bump cnts.1 t, cnts.2.1, cnts.2.2)
  else if is_pred && !in_true then (cnts.1, bump cnts.2.1 t, cnts.2.2)
  else if !is_pred && in_true then (cnts.1, cnts.2.1, bump cnts.2.2 t)
  else cnts

/-- The mutable run state initialised at lines 43-56. -/
structure RunState where
  results : List EvaluationResult
  total_confidence : ℚ
  confusion_counter : List (String × Nat)
  tp_counts : List (String × Nat)
  fp_counts : List (String × Nat)
  fn_counts : List (String × Nat)
  per_tag_total : List (String × Nat)
  per_tag_correct : List (String × Nat)
  correct_predictions_overall : Nat
  deriving Repr

def init_state : RunState :=
  ⟨[], 0, [], [], [], [], [], [], 0⟩

/-- The body of the per-item loop (lines 60-167), covering both the success
path (`try`) and the exception path (`except`, lines 142-151). -/
def process_item (st : RunState) (item : EvalItem) : RunState :=
  let padded := padded_gt item.ground_truth_tags
  let tags := truthy_tags item.ground_truth_tags
  match item.prediction with
  | Except.ok tri =>
      let predicted_tag1 := orNone tri.tag1
      let predicted_tag2 := orNone tri.tag2
      let predicted_tag3 := orNone tri.tag3
      let predicted_confidence := tri.confidence
      let match_priority := find_match predicted_tag1 padded 1
      let is_correct := match_priority.isSome
      let confusion :=
        if truthyStr predicted_tag1 && !is_correct then
          match first_truthy padded with
          | some t => bump st.confusion_counter (t ++ " → " ++ predicted_tag1.getD "")
          | none => st.confusion_counter
        else st.confusion_counter
      let cnts := (all_tags_in_dataset item.ground_truth_tags predicted_tag1).foldl
        (tpfpfn_update padded predicted_tag1) (st.tp_counts, st.fp_counts, st.fn_counts)
      { results := st.results ++ [{
          predicted_tag1 := predicted_tag1
          predicted_tag2 := predicted_tag2
          predicted_tag3 := predicted_tag3
          predicted_confidence := predicted_confidence
          ground_truth_tags := tags
          is_correct := is_correct
          match_priority := match_priority
          error_message := none }]
        total_confidence := st.total_confidence + predicted_confidence
        confusion_counter := confusion
        tp_counts := cnts.1
        fp_counts := cnts.2.1
        fn_counts := cnts.2.2
        per_tag_total := tags.foldl bump st.per_tag_total
        per_tag_correct :=
          if is_correct && truthyStr predicted_tag1 then
            bump st.per_tag_correct (predicted_tag1.getD "")
          else st.per_tag_correct
        correct_predictions_overall :=
          st.correct_predictions_overall + (if is_correct then 1 else 0) }
  | Except.error msg =>
      { st with
        results := st.results ++ [{
          predicted_tag1 := none
          predicted_tag2 := none
          predicted_tag3 := none
          predicted_confidence := 0
          ground_truth_tags := tags
          is_correct := false
          match_priority := none
          error_message := some msg }]
        total_confidence := st.total_confidence + 0
        per_tag_total := tags.foldl bump st.per_tag_total }

/-- The whole item loop: fold `process_item` over the dataset. -/
def run_items (items : List EvalItem) : RunState :=
  items.foldl process_item init_state

/-- EXACT@2 condition at lines 198-203, computed from a stored result.  The
source reads `gt_list[0]` directly, which would raise on an empty list; the
dataset loader (lines 347-348) only admits items with at least one nonempty
tag, so the total `getElem?` access used here agrees on every reachable
input. -/
def exact2_cond (r : EvaluationResult) : Bool :=
  let gt1 := r.ground_truth_tags[0]?
  let gt2 := r.ground_truth_tags[1]?
  r.predicted_tag1 == gt1 &&
    ((gt2 == none && r.predicted_tag2 == none) ||
     (!(gt2 == none) && r.predicted_tag2 == gt2))

/-- EXACT@3 condition at lines 205-215. -/
def exact3_cond (r : EvaluationResult) : Bool :=
  let gt1 := r.ground_truth_tags[0]?
  let gt2 := r.ground_truth_tags[1]?
  let gt3 := r.ground_truth_tags[2]?
  r.predicted_tag1 == gt1 &&
    ((gt2 == none && r.predicted_tag2 == none) ||
     (!(gt2 == none) && r.predicted_tag2 == gt2)) &&
    ((gt3 == none && r.predicted_tag3 == none) ||
     (!(gt3 == none) && r.predicted_tag3 == gt3))

/-- Lines 222-226: `total_weight` accumulates `1/match_priority` over results
whose `match_priority` is truthy (`None` and `0` are falsy in Python). -/
def total_weight (results : List EvaluationResult) : ℚ :=
  results.foldl (fun acc r =>
    match r.match_priority with
    | some k => if k = 0 then acc else acc + 1 / (k : ℚ)
    | none => acc) 0

/-- Metric computation, lines 169-243 and 261-275. -/
def build_metrics (st : RunState) : EvaluationMetrics :=
  let results := st.results
  let N := results.length
  let correct_at_1 := results.countP (fun r => r.match_priority == some 1)
  let correct_at_2 := results.countP (fun r =>
    r.match_priority == some 1 || r.match_priority == some 2)
  let correct_at_3 := results.countP (fun r =>
    r.match_priority == some 1 || r.match_priority == some 2 ||
      r.match_priority == some 3)
  let exact2_count := results.countP exact2_cond
  let exact3_count := results.countP exact3_cond
  let sum_tp := sum_values st.tp_counts
  let sum_fp := sum_values st.fp_counts
  let sum_fn := sum_values st.fn_counts
  let precision : ℚ := if sum_tp + sum_fp > 0 then (sum_tp : ℚ) / ((sum_tp + sum_fp : Nat) : ℚ) else 0
  let recall_score : ℚ := if sum_tp + sum_fn > 0 then (sum_tp : ℚ) / ((sum_tp + sum_fn : Nat) : ℚ) else 0
  { accuracy_at_1 := if N > 0 then (correct_at_1 : ℚ) / (N : ℚ) else 0
    accuracy_at_2 := if N > 0 then (correct_at_2 : ℚ) / (N : ℚ) else 0
    accuracy_at_3 := if N > 0 then (correct_at_3 : ℚ) / (N : ℚ) else 0
    weighted_accuracy := if N > 0 then total_weight results / (N : ℚ) else 0
    exact_match_at_2 := if N > 0 then (exact2_count : ℚ) / (N : ℚ) else 0
    exact_match_at_3 := if N > 0 then (exact3_count : ℚ) / (N : ℚ) else 0
    precision := precision
    recall_score := recall_score
    f1_score := if precision + recall_score > 0 then 2 * precision * recall_score / (precision + recall_score) else 0
    average_confidence := if N > 0 then st.total_confidence / (N : ℚ) else 0
    total_predictions := N
    correct_predictions := st.correct_predictions_overall }

/-- Lines 248-252: per-tag accuracy in the insertion order of
`per_tag_total`. -/
def tag_accuracy_list (total correct : List (String × Nat)) : List (String × ℚ) :=
  total.map (fun p => (p.1, if p.2 > 0 then (lookupD correct p.1 : ℚ) / (p.2 : ℚ) else 0))

/-- Lines 254-255: stable sort descending by accuracy, take 3 tag names. -/
def best_performing (ta : List (String × ℚ)) : List String :=
  ((List.insertionSort (fun a b => b.2 ≤ a.2) ta).take 3).map Prod.fst

/-- Lines 257-258: stable sort ascending by accuracy, take 3 tag names. -/
def worst_performing (ta : List (String × ℚ)) : List String :=
  ((List.insertionSort (fun a b => a.2 ≤ b.2) ta).take 3).map Prod.fst

/-- `evaluate_all` (lines 27-287) as a function of the loaded dataset and the
per-item predictor outcomes; the empty-dataset check at lines 34-38 becomes
the `Except.error` branch. -/
def evaluate_all (evaluation_data : List EvalItem) : Except String EvaluationResponse :=
  if evaluation_data.isEmpty then
    Except.error "No evaluation data available after load_evaluation_data()"
  else
    let st := run_items evaluation_data
    Except.ok {
      metrics := build_metrics st
      results := st.results
      most_confused_tags := List.insertionSort (fun a b => b.2 ≤ a.2) st.confusion_counter
      best_performing_categories :=
        best_performing (tag_accuracy_list st.per_tag_total st.per_tag_correct)
      worst_performing_categories :=
        worst_performing (tag_accuracy_list st.per_tag_total st.per_tag_correct) }

/-! ## Basic lemmas about the dictionary and scan helpers -/

theorem lookupD_bump (m : List (String × Nat)) (k t : String) :
    lookupD (bump m k) t = lookupD m t + (if t = k then 1 else 0) := by
  induction m with
  | nil =>
    simp only [bump, lookupD]
    rcases eq_or_ne k t with h | h
    · simp [h]
    · simp [h, Ne.symm h]
  | cons hd tl ih =>
    obtain ⟨k', v⟩ := hd
    simp only [bump]
    rcases eq_or_ne k' k with hk | hk
    · subst hk
      simp only [if_pos rfl, lookupD]
      rcases eq_or_ne k' t with ht | ht
      · simp [ht]
      · simp [ht, Ne.symm ht]
    · rw [if_neg hk]
      simp only [lookupD]
      rcases eq_or_ne k' t with ht | ht
      · have htk : ¬t = k := fun hh => hk (ht.trans hh)
        simp [ht, htk]
      · simp [ht, ih]

theorem sum_values_bump (m : List (String × Nat)) (k : String) :
    sum_values (bump m k) = sum_values m + 1 := by
  induction m with
  | nil => simp [bump, sum_values]
  | cons hd tl ih =>
    obtain ⟨k', v⟩ := hd
    by_cases hk : k' = k <;> simp [bump, sum_values, hk] at ih ⊢ <;> omega

theorem lookupD_foldl_bump (ts : List String) (m : List (String × Nat)) (t : String) :
    lookupD (ts.foldl bump m) t = lookupD m t + ts.count t := by
  induction ts generalizing m with
  | nil => simp
  | cons a ts ih =>
    simp only [List.foldl_cons, ih, lookupD_bump, List.count_cons]
    have : (if a == t then 1 else 0) = (if t = a then 1 else 0) := by
      by_cases h : t = a <;> simp [h]
      intro h'; exact absurd h'.symm h
    omega

theorem sum_values_foldl_bump (ts : List String) (m : List (String × Nat)) :
    sum_values (ts.foldl bump m) = sum_values m + ts.length := by
  induction ts generalizing m with
  | nil => simp
  | cons a ts ih =>
    simp only [List.foldl_cons, ih, sum_values_bump, List.length_cons]
    omega

theorem find_match_replicate (p1 : Option String) (k i : Nat) :
    find_match p1 (List.replicate k none) i = none := by
  induction k generalizing i with
  | zero => rfl
  | succ k ih => simp [List.replicate, find_match, ih]

theorem find_match_none (l : List (Option String)) (i : Nat) :
    find_match none l i = none := by
  induction l generalizing i with
  | nil => rfl
  | cons o rest ih => cases o <;> simp [find_match, ih]

/-- The scan at lines 97-105 finds exactly the index, counted from the given
start, of the first ground-truth entry whose tag equals `predicted_tag1` —
the trailing `None` padding never matches. -/
theorem find_match_eq_findIdx (gs : List GroundTruthTag) (p1 : Option String)
    (k i : Nat) :
    find_match p1 ((gs.map (fun g => some g.tag)) ++ List.replicate k none) i =
      gs.findIdx? (fun g => p1 == some g.tag) i := by
  induction gs generalizing i with
  | nil => simpa using find_match_replicate p1 k i
  | cons g gs ih =>
    simp only [List.map_cons, List.cons_append, find_match, List.findIdx?_cons]
    by_cases h : p1 = some g.tag <;> simp [h, ih]

/-- `match_priority` is the 1-based position, in the ascending-priority order,
of the first ground-truth entry whose tag equals `predicted_tag1`. -/
theorem match_rank_of_eq (gts : List GroundTruthTag) (p1 : Option String) :
    match_rank_of gts p1 = (sorted_gt gts).findIdx? (fun g => p1 == some g.tag) 1 := by
  unfold match_rank_of padded_gt
  exact find_match_eq_findIdx (sorted_gt gts) p1 _ 1

theorem orNone_orNone (o : Option String) : orNone (orNone o) = orNone o := by
  cases o with
  | none => rfl
  | some s =>
    by_cases h : s = ""
    · subst h; rfl
    · simp [orNone, truthyStr, h]

theorem sorted_gt_perm (gts : List GroundTruthTag) : List.Perm (sorted_gt gts) gts :=
  List.perm_insertionSort _ gts

theorem sorted_gt_sorted (gts : List GroundTruthTag) :
    (sorted_gt gts).Sorted (fun a b => a.priority ≤ b.priority) := by
  haveI : IsTotal GroundTruthTag (fun a b => a.priority ≤ b.priority) :=
    ⟨fun a b => Nat.le_total a.priority b.priority⟩
  haveI : IsTrans GroundTruthTag (fun a b => a.priority ≤ b.priority) :=
    ⟨fun _ _ _ hab hbc => Nat.le_trans hab hbc⟩
  exact List.sorted_insertionSort _ gts

/-! ## Spec-side (claim-worded) definitions, for refinement comparisons -/

/-- The match rank as claim C1 words it: "the priority of the first entry,
scanning by ascending priority, whose tag equals prediction.tag1". -/
def claim_match_rank (gts : List GroundTruthTag) (p1 : Option String) : Option Nat :=
  ((sorted_gt gts).find? (fun g => p1 == some g.tag)).map (fun g => g.priority)

/-- The weighted-accuracy contribution of one outcome as claim C5 words it:
`1/match_rank` when a match rank is present, `0` otherwise (a rank of `0`
never occurs; it is mapped to `0` to mirror Python truthiness). -/
def weight_spec (r : EvaluationResult) : ℚ :=
  match r.match_priority with
  | some k => if k = 0 then 0 else 1 / (k : ℚ)
  | none => 0

/-- A triple with every empty-string slot replaced by an absent slot. -/
def normalize_triple (tri : TagTriple) : TagTriple :=
  ⟨orNone tri.tag1, orNone tri.tag2, orNone tri.tag3, tri.confidence⟩

/-! ## Claim theorems -/

/-- C8: when the dataset yields no items, the run aborts with a single
top-level failure (the `RuntimeError` of line 38) before scoring anything: no
`Except.ok` response — hence no per-item outcome and no aggregate counter —
is produced. -/
theorem claim8_theorem :
    evaluate_all [] =
      Except.error "No evaluation data available after load_evaluation_data()" := rfl

/-- C7: with no outcomes (N = 0) every ratio metric — accuracy@1/2/3,
exact_match@2/3, weighted accuracy, average confidence, precision, recall and
f1 — is 0; the (total) metric computation performs no division by zero and
cannot raise. -/
theorem claim7_theorem :
    build_metrics init_state =
      { accuracy_at_1 := 0, accuracy_at_2 := 0, accuracy_at_3 := 0
        weighted_accuracy := 0, exact_match_at_2 := 0, exact_match_at_3 := 0
        precision := 0, recall_score := 0, f1_score := 0, average_confidence := 0
        total_predictions := 0, correct_predictions := 0 } := by
  simp [build_metrics, init_state, sum_values, total_weight]

/-- C1, counterexample: for the ground-truth list `[{tag := "B", priority := 2}]`
(one entry, priority-unique) and a prediction with `tag1 = "B"`, the code
records `match_priority = 1` (the position in the scan), while the claim's
"priority of the first matching entry" is `2`. -/
theorem claim1_counterexample :
    ((run_items [⟨[⟨"B", 2⟩], Except.ok ⟨some "B", none, none, 1⟩⟩]).results.map
        (fun r => r.match_priority) = [some 1]) ∧
    claim_match_rank [⟨"B", 2⟩] (orNone (some "B")) = some 2 ∧
    ¬ (some 1 : Option Nat) = some 2 := by decide

/-- C1, amended: `match_priority` is the 1-based POSITION, in the
ascending-priority order of the ground-truth list, of the first entry whose
tag equals `prediction.tag1` (equal to the entry's priority only when
priorities are contiguous from 1); it is absent when nothing matches or
`tag1` is absent, only `tag1` participates (the characterisation does not
mention `tag2`/`tag3`), and `is_correct` holds exactly when `match_priority`
is present. -/
theorem claim1_theorem (gts : List GroundTruthTag) (tri : TagTriple) (st : RunState) :
    (∃ r, (process_item st ⟨gts, Except.ok tri⟩).results = st.results ++ [r] ∧
      r.match_priority = match_rank_of gts (orNone tri.tag1) ∧
      r.is_correct = r.match_priority.isSome) ∧
    match_rank_of gts (orNone tri.tag1) =
      (sorted_gt gts).findIdx? (fun g => orNone tri.tag1 == some g.tag) 1 ∧
    (sorted_gt gts).Sorted (fun a b => a.priority ≤ b.priority) ∧
    List.Perm (sorted_gt gts) gts ∧
    match_rank_of gts none = none := by
  refine ⟨⟨_, rfl, rfl, rfl⟩, match_rank_of_eq gts _, sorted_gt_sorted gts,
    sorted_gt_perm gts, find_match_none _ 1⟩

theorem total_weight_foldl (rs : List EvaluationResult) (acc : ℚ) :
    rs.foldl (fun acc r =>
      match r.match_priority with
      | some k => if k = 0 then acc else acc + 1 / (k : ℚ)
      | none => acc) acc = acc + (rs.map weight_spec).sum := by
  induction rs generalizing acc with
  | nil => simp
  | cons r rs ih =>
    simp only [List.foldl_cons, List.map_cons, List.sum_cons, ih]
    cases h : r.match_priority with
    | none => simp [weight_spec, h]
    | some k =>
      rcases eq_or_ne k 0 with hk | hk
      · simp [weight_spec, h, hk]
      · simp [weight_spec, h, hk]
        ring

theorem total_weight_eq (rs : List EvaluationResult) :
    total_weight rs = (rs.map weight_spec).sum := by
  unfold total_weight
  rw [total_weight_foldl]
  simp

/-- C5: the run's weighted accuracy is the sum over outcomes with a match
rank of `1/match_rank`, divided by the number of outcomes (unmatched items
contribute 0); appending one outcome adds exactly its `1/match_rank`
contribution, and an outcome matching at rank 2 contributes `1/2`. -/
theorem claim5_theorem (items : List EvalItem) :
    (build_metrics (run_items items)).weighted_accuracy =
      ((run_items items).results.map weight_spec).sum /
        (((run_items items).results.length : Nat) : ℚ) ∧
    (∀ rs r, total_weight (rs ++ [r]) = total_weight rs + weight_spec r) ∧
    (∀ t1 t2 t3 c g ic em,
      weight_spec ⟨t1, t2, t3, c, g, ic, some 2, em⟩ = 1 / 2) := by
  refine ⟨?_, ?_, ?_⟩
  · show (if (run_items items).results.length > 0 then
        total_weight (run_items items).results / ((run_items items).results.length : ℚ)
      else 0) = _
    by_cases h : (run_items items).results.length > 0
    · rw [if_pos h, total_weight_eq]
    · rw [if_neg h]
      have hz : (run_items items).results = [] := by
        cases hh : (run_items items).results with
        | nil => rfl
        | cons a l => rw [hh] at h; simp at h
      simp [hz]
  · intro rs r
    rw [total_weight_eq, total_weight_eq]
    simp
  · intro t1 t2 t3 c g ic em
    simp [weight_spec]

theorem tpfpfn_foldl_fst_none (padded : List (Option String)) (ts : List String)
    (cnts : List (String × Nat) × List (String × Nat) × List (String × Nat)) :
    (ts.foldl (tpfpfn_update padded none) cnts).1 = cnts.1 ∧
    (ts.foldl (tpfpfn_update padded none) cnts).2.1 = cnts.2.1 := by
  induction ts generalizing cnts with
  | nil => exact ⟨rfl, rfl⟩
  | cons t ts ih =>
    have hstep : tpfpfn_update padded none cnts t =
        if some t ∈ padded then (cnts.1, cnts.2.1, bump cnts.2.2 t) else cnts := by
      simp [tpfpfn_update]
    simp only [List.foldl_cons, hstep]
    by_cases h : some t ∈ padded
    · rw [if_pos h]; exact ih _
    · rw [if_neg h]; exact ih _

theorem orNone_none : orNone none = none := rfl

theorem truthyStr_none : truthyStr none = false := rfl

/-- C10: a returned empty-string tag slot is treated exactly as an absent
slot.  Scoring any triple equals scoring its normalization (empty slots
replaced by absent ones) — so empty `tag2`/`tag3` count as "absent" in the
exact@2/exact@3 agreement conditions and are never compared against
ground-truth tags — and an empty-string `tag1` yields no match, a false
`is_correct`, and leaves the confusion counter and the TP/FP counts
untouched. -/
theorem claim10_theorem :
    (∀ st gts tri, process_item st ⟨gts, Except.ok tri⟩ =
        process_item st ⟨gts, Except.ok (normalize_triple tri)⟩) ∧
    (∀ st gts t2 t3 c, ∃ r,
      (process_item st ⟨gts, Except.ok ⟨some "", t2, t3, c⟩⟩).results = st.results ++ [r] ∧
      r.predicted_tag1 = none ∧ r.match_priority = none ∧ r.is_correct = false ∧
      (process_item st ⟨gts, Except.ok ⟨some "", t2, t3, c⟩⟩).confusion_counter =
        st.confusion_counter ∧
      (process_item st ⟨gts, Except.ok ⟨some "", t2, t3, c⟩⟩).tp_counts = st.tp_counts ∧
      (process_item st ⟨gts, Except.ok ⟨some "", t2, t3, c⟩⟩).fp_counts = st.fp_counts) := by
  have hmain : ∀ st gts tri, process_item st ⟨gts, Except.ok tri⟩ =
      process_item st ⟨gts, Except.ok (normalize_triple tri)⟩ := by
    intro st gts tri
    simp only [process_item, normalize_triple, orNone_orNone]
  refine ⟨hmain, ?_⟩
  intro st gts t2 t3 c
  rw [hmain]
  have hnt : normalize_triple ⟨some "", t2, t3, c⟩ = ⟨none, orNone t2, orNone t3, c⟩ := rfl
  rw [hnt]
  simp only [process_item, orNone_none, orNone_orNone, truthyStr_none, find_match_none,
    Option.isSome_none, Bool.false_and, Bool.if_false_left, if_false, Bool.false_eq_true,
    ite_false]
  refine ⟨_, rfl, ?_, ?_, ?_, ?_, ?_, ?_⟩ <;>
    first
      | rfl
      | trivial
      | exact (tpfpfn_foldl_fst_none _ _ _).1
      | exact (tpfpfn_foldl_fst_none _ _ _).2

theorem process_item_results_length (st : RunState) (item : EvalItem) :
    (process_item st item).results.length = st.results.length + 1 := by
  obtain ⟨g, p⟩ := item
  cases p <;> simp [process_item]

theorem foldl_results_length (items : List EvalItem) (st : RunState) :
    (items.foldl process_item st).results.length = st.results.length + items.length := by
  induction items generalizing st with
  | nil => simp
  | cons item items ih =>
    simp only [List.foldl_cons, ih, process_item_results_length, List.length_cons]
    omega

/-- C4: a failed prediction is caught: the loop body appends an outcome with
the error string recorded, `is_correct = false`, no match rank and zero
confidence; every ground-truth tag still counts toward `per_tag_total`, while
`per_tag_correct`, TP/FP/FN and the confusion counter are untouched; and the
run always continues through all items (one outcome per item, no raise). -/
theorem claim4_theorem (st : RunState) (gts : List GroundTruthTag) (msg : String) :
    (process_item st ⟨gts, Except.error msg⟩).results =
      st.results ++ [{ predicted_tag1 := none, predicted_tag2 := none, predicted_tag3 := none
                       predicted_confidence := 0, ground_truth_tags := truthy_tags gts
                       is_correct := false, match_priority := none
                       error_message := some msg }] ∧
    (∀ t, lookupD (process_item st ⟨gts, Except.error msg⟩).per_tag_total t =
      lookupD st.per_tag_total t + (truthy_tags gts).count t) ∧
    (process_item st ⟨gts, Except.error msg⟩).per_tag_correct = st.per_tag_correct ∧
    (process_item st ⟨gts, Except.error msg⟩).tp_counts = st.tp_counts ∧
    (process_item st ⟨gts, Except.error msg⟩).fp_counts = st.fp_counts ∧
    (process_item st ⟨gts, Except.error msg⟩).fn_counts = st.fn_counts ∧
    (process_item st ⟨gts, Except.error msg⟩).confusion_counter = st.confusion_counter ∧
    (∀ items, (run_items items).results.length = items.length) := by
  refine ⟨rfl, ?_, rfl, rfl, rfl, rfl, rfl, ?_⟩
  · intro t
    exact lookupD_foldl_bump (truthy_tags gts) st.per_tag_total t
  · intro items
    have hlen := foldl_results_length items init_state
    simpa [run_items, init_state] using hlen

theorem filterMap_truthy_replicate (k : Nat) :
    (List.replicate k (none : Option String)).filterMap
      (fun o => if truthyStr o then o else none) = [] := by
  induction k with
  | zero => rfl
  | succ k ih => simp [List.replicate_succ, List.filterMap_cons, truthyStr, ih]

theorem filterMap_truthy_map_some (ts : List String) (h : ∀ t ∈ ts, ¬ t = "") :
    (ts.map some).filterMap (fun o => if truthyStr o then o else none) = ts := by
  induction ts with
  | nil => rfl
  | cons t ts ih =>
    have ht : ¬ t = "" := h t (List.mem_cons_self t ts)
    have ih' := ih (fun u hu => h u (List.mem_cons_of_mem t hu))
    simp only [List.filterMap_map] at ih'
    have hfa : (fun o => if truthyStr o then o else none) (some t) = some t := by
      simp [truthyStr, ht]
    simp [List.filterMap_cons, hfa, ih']

theorem truthy_tags_eq (gts : List GroundTruthTag) (h : ∀ g ∈ gts, ¬ g.tag = "") :
    truthy_tags gts = (sorted_gt gts).map (fun g => g.tag) := by
  unfold truthy_tags padded_gt
  simp only [List.filterMap_append]
  rw [show (sorted_gt gts).map (fun g => some g.tag) =
      ((sorted_gt gts).map (fun g => g.tag)).map some by simp]
  rw [filterMap_truthy_map_some, filterMap_truthy_replicate, List.append_nil]
  intro t hmem
  obtain ⟨g, hg, rfl⟩ := List.mem_map.mp hmem
  exact h g ((sorted_gt_perm gts).mem_iff.mp hg)

/-- The slot-`k` (0-based) tag of the ground-truth list in ascending-priority
order. -/
def slot_tag (gts : List GroundTruthTag) (k : Nat) : Option String :=
  ((sorted_gt gts)[k]?).map (fun g => g.tag)

/-- exact@2 as claim C2 words it: agreement on the priority-1 tag, and on the
tag AT PRIORITY 2 (agreement on absence included). -/
def claim_exact_at_2 (gts : List GroundTruthTag) (p1 p2 : Option String) : Bool :=
  let gt_at_2 := (gts.find? (fun g => g.priority == 2)).map (fun g => g.tag)
  (p1 == ((sorted_gt gts).head?).map (fun g => g.tag)) &&
    ((gt_at_2 == none && p2 == none) || (!(gt_at_2 == none) && p2 == gt_at_2))

/-- C2, counterexample: for ground truth `[{"A", 1}, {"C", 3}]` (no tag at
priority 2) and prediction `(tag1 = "A", tag2 = "C")`, the claim requires
`exact_at_2 = false` (a present `tag2` with no priority-2 tag), but the code
compares `tag2` against the SECOND LIST SLOT, which holds "C", and yields
`exact_at_2 = true`. -/
theorem claim2_counterexample :
    ((run_items [⟨[⟨"A", 1⟩, ⟨"C", 3⟩], Except.ok ⟨some "A", some "C", none, 1⟩⟩]).results.map
        exact2_cond = [true]) ∧
    claim_exact_at_2 [⟨"A", 1⟩, ⟨"C", 3⟩] (orNone (some "A")) (orNone (some "C")) = false := by
  decide

/-- C2, amended: `exact_at_2` is true iff `tag1` equals the first slot of the
priority-sorted ground-truth list and `tag2` agrees with the SECOND SLOT of
that list (agreement on absence included) — the slot at position k, not the
tag with priority k; `exact_at_3` additionally requires the analogous
agreement between `tag3` and the third slot. -/
theorem claim2_theorem (gts : List GroundTruthTag) (tri : TagTriple) (st : RunState)
    (h : ∀ g ∈ gts, ¬ g.tag = "") :
    ∃ r, (process_item st ⟨gts, Except.ok tri⟩).results = st.results ++ [r] ∧
      exact2_cond r = ((orNone tri.tag1 == slot_tag gts 0) &&
        ((slot_tag gts 1 == none && orNone tri.tag2 == none) ||
         (!(slot_tag gts 1 == none) && orNone tri.tag2 == slot_tag gts 1))) ∧
      exact3_cond r = ((orNone tri.tag1 == slot_tag gts 0) &&
        ((slot_tag gts 1 == none && orNone tri.tag2 == none) ||
         (!(slot_tag gts 1 == none) && orNone tri.tag2 == slot_tag gts 1)) &&
        ((slot_tag gts 2 == none && orNone tri.tag3 == none) ||
         (!(slot_tag gts 2 == none) && orNone tri.tag3 == slot_tag gts 2))) := by
  refine ⟨_, rfl, ?_, ?_⟩ <;>
    simp only [exact2_cond, exact3_cond, truthy_tags_eq gts h, List.getElem?_map, slot_tag]

/-- The spec's Scenario C ground truth. -/
def c2_gt : List GroundTruthTag := [⟨"A", 1⟩, ⟨"B", 2⟩]

/-- The spec's Scenario C prediction triple. -/
def c2_tri : TagTriple := ⟨some "A", some "B", some "X", 1⟩

/-- Witness for C2's amended theorem at the spec's Scenario C input:
ground truth `[{"A",1},{"B",2}]`, prediction `("A","B","X")`. -/
theorem claim2_theorem_witness :
    (∃ r, (process_item init_state ⟨c2_gt, Except.ok c2_tri⟩).results =
          init_state.results ++ [r] ∧
      exact2_cond r = ((orNone c2_tri.tag1 == slot_tag c2_gt 0) &&
        ((slot_tag c2_gt 1 == none && orNone c2_tri.tag2 == none) ||
         (!(slot_tag c2_gt 1 == none) && orNone c2_tri.tag2 == slot_tag c2_gt 1))) ∧
      exact3_cond r = ((orNone c2_tri.tag1 == slot_tag c2_gt 0) &&
        ((slot_tag c2_gt 1 == none && orNone c2_tri.tag2 == none) ||
         (!(slot_tag c2_gt 1 == none) && orNone c2_tri.tag2 == slot_tag c2_gt 1)) &&
        ((slot_tag c2_gt 2 == none && orNone c2_tri.tag3 == none) ||
         (!(slot_tag c2_gt 2 == none) && orNone c2_tri.tag3 == slot_tag c2_gt 2)))) ∧
    ((run_items [⟨c2_gt, Except.ok c2_tri⟩]).results.map exact2_cond = [true]) ∧
    ((run_items [⟨c2_gt, Except.ok c2_tri⟩]).results.map exact3_cond = [false]) :=
  ⟨claim2_theorem c2_gt c2_tri init_state (by decide), by decide, by decide⟩

theorem first_truthy_replicate (k : Nat) :
    first_truthy (List.replicate k none) = none := by
  induction k with
  | zero => rfl
  | succ k ih => simp [List.replicate_succ, first_truthy, truthyStr, ih]

theorem first_truthy_padded (gts : List GroundTruthTag) (h : ∀ g ∈ gts, ¬ g.tag = "") :
    first_truthy (padded_gt gts) = ((sorted_gt gts).head?).map (fun g => g.tag) := by
  unfold padded_gt
  cases hs : sorted_gt gts with
  | nil => exact first_truthy_replicate 3
  | cons g gs =>
    have hg : ¬ g.tag = "" :=
      h g ((sorted_gt_perm gts).mem_iff.mp (hs ▸ List.mem_cons_self g gs))
    simp [first_truthy, truthyStr, hg]

/-- An item "qualifies" for a confusion entry in the sense of claim C6:
its prediction succeeded, `prediction.tag1` is present, and the item is not
correct. -/
def qualifies (item : EvalItem) : Bool :=
  match item.prediction with
  | Except.ok tri => truthyStr (orNone tri.tag1) &&
      !(match_rank_of item.ground_truth_tags (orNone tri.tag1)).isSome
  | Except.error _ => false

theorem process_item_ok_confusion (st : RunState) (gts : List GroundTruthTag)
    (tri : TagTriple) (h1 : gts ≠ []) (h2 : ∀ g ∈ gts, ¬ g.tag = "") :
    (process_item st ⟨gts, Except.ok tri⟩).confusion_counter =
      (if qualifies ⟨gts, Except.ok tri⟩ then
        bump st.confusion_counter
          ((((sorted_gt gts).head?).map (fun g => g.tag)).getD "" ++ " → " ++
            (orNone tri.tag1).getD "")
      else st.confusion_counter) := by
  have hne : sorted_gt gts ≠ [] := by
    intro hnil
    have hlen := (sorted_gt_perm gts).length_eq
    rw [hnil] at hlen
    exact h1 (List.length_eq_zero.mp hlen.symm)
  obtain ⟨g, gs, hs⟩ := List.exists_cons_of_ne_nil hne
  have hft : first_truthy (padded_gt gts) = some g.tag := by
    rw [first_truthy_padded gts h2, hs]
    rfl
  have hgd : (((sorted_gt gts).head?).map (fun g => g.tag)).getD "" = g.tag := by
    rw [hs]
    rfl
  cases ht1 : truthyStr (orNone tri.tag1) with
  | false => simp [process_item, qualifies, match_rank_of, ht1]
  | true =>
    cases hfm : find_match (orNone tri.tag1) (padded_gt gts) 1 with
    | some k => simp [process_item, qualifies, match_rank_of, ht1, hfm]
    | none => simp [process_item, qualifies, match_rank_of, ht1, hfm, hft, hgd]

theorem process_item_confusion_sum (st : RunState) (item : EvalItem)
    (h1 : item.ground_truth_tags ≠ [])
    (h2 : ∀ g ∈ item.ground_truth_tags, ¬ g.tag = "") :
    sum_values (process_item st item).confusion_counter =
      sum_values st.confusion_counter + (if qualifies item then 1 else 0) := by
  obtain ⟨gts, pred⟩ := item
  cases pred with
  | error msg => simp [process_item, qualifies]
  | ok tri =>
    rw [process_item_ok_confusion st gts tri h1 h2]
    by_cases hq : qualifies ⟨gts, Except.ok tri⟩
    · simp [hq, sum_values_bump]
    · simp [hq]

theorem foldl_confusion_sum (items : List EvalItem) (st : RunState)
    (h : ∀ item ∈ items, item.ground_truth_tags ≠ [] ∧
      ∀ g ∈ item.ground_truth_tags, ¬ g.tag = "") :
    sum_values ((items.foldl process_item st).confusion_counter) =
      sum_values st.confusion_counter + items.countP qualifies := by
  induction items generalizing st with
  | nil => simp
  | cons item items ih =>
    have hitem := h item (List.mem_cons_self item items)
    simp only [List.foldl_cons, List.countP_cons]
    rw [ih _ (fun i hi => h i (List.mem_cons_of_mem _ hi)),
      process_item_confusion_sum st item hitem.1 hitem.2]
    by_cases hq : qualifies item
    · simp [hq]
      omega
    · simp [hq]

/-- C6: a confusion pair is recorded for an item exactly when
`prediction.tag1` is present and `is_correct` is false (given the dataset
loader's guarantees: at least one ground-truth entry, no empty tag strings);
the recorded pair is (first ground-truth tag by ascending priority,
prediction.tag1), each qualifying item bumps exactly one count by one, and
the total of all confusion counts equals the number of qualifying items. -/
theorem claim6_theorem (items : List EvalItem)
    (h : ∀ item ∈ items, item.ground_truth_tags ≠ [] ∧
      ∀ g ∈ item.ground_truth_tags, ¬ g.tag = "") :
    sum_values (run_items items).confusion_counter = items.countP qualifies ∧
    (∀ st gts tri, gts ≠ [] → (∀ g ∈ gts, ¬ g.tag = "") →
      (process_item st ⟨gts, Except.ok tri⟩).confusion_counter =
        (if qualifies ⟨gts, Except.ok tri⟩ then
          bump st.confusion_counter
            ((((sorted_gt gts).head?).map (fun g => g.tag)).getD "" ++ " → " ++
              (orNone tri.tag1).getD "")
        else st.confusion_counter)) := by
  constructor
  · have := foldl_confusion_sum items init_state h
    simpa [run_items, init_state, sum_values] using this
  · intro st gts tri hh1 hh2
    exact process_item_ok_confusion st gts tri hh1 hh2

/-- The spec's Scenario D dataset: ground truth `[{"SPORT",1}]` with the
wrong prediction `tag1 = "MAD"`. -/
def c6_items : List EvalItem :=
  [⟨[⟨"SPORT", 1⟩], Except.ok ⟨some "MAD", none, none, 1⟩⟩]

/-- Witness for C6 at the spec's Scenario D input: one confusion entry
`"SPORT → MAD"`, total count 1 = number of qualifying items. -/
theorem claim6_theorem_witness :
    (sum_values (run_items c6_items).confusion_counter = c6_items.countP qualifies ∧
    (∀ st gts tri, gts ≠ [] → (∀ g ∈ gts, ¬ g.tag = "") →
      (process_item st ⟨gts, Except.ok tri⟩).confusion_counter =
        (if qualifies ⟨gts, Except.ok tri⟩ then
          bump st.confusion_counter
            ((((sorted_gt gts).head?).map (fun g => g.tag)).getD "" ++ " → " ++
              (orNone tri.tag1).getD "")
        else st.confusion_counter))) ∧
    (run_items c6_items).confusion_counter = [("SPORT → MAD", 1)] :=
  ⟨claim6_theorem c6_items (by decide), by decide⟩

/-- Claim C3's tag universe for one item: the union of the item's
ground-truth tags and `{prediction.tag1}` (if present). -/
def spec_S (gtags : List String) (p1 : Option String) : Finset String :=
  gtags.toFinset ∪ p1.toFinset

/-- Claim C3: `t` is a true positive iff `t = tag1` and `t` is in the
ground-truth list; the item's TP contribution is the number of such tags in
`S`. -/
def spec_item_tp (gtags : List String) (p1 : Option String) : Nat :=
  ((spec_S gtags p1).filter (fun t => p1 = some t ∧ t ∈ gtags)).card

/-- Claim C3: `t` is a false positive iff `t = tag1` and `t` is not in the
ground-truth list. -/
def spec_item_fp (gtags : List String) (p1 : Option String) : Nat :=
  ((spec_S gtags p1).filter (fun t => p1 = some t ∧ ¬ t ∈ gtags)).card

/-- Claim C3: `t` is a false negative iff `t ≠ tag1` and `t` is in the
ground-truth list. -/
def spec_item_fn (gtags : List String) (p1 : Option String) : Nat :=
  ((spec_S gtags p1).filter (fun t => ¬ p1 = some t ∧ t ∈ gtags)).card

/-- Per-item TP contribution; an item whose prediction failed has no
prediction and contributes nothing (claims C3/C4). -/
def spec_item_tp_of (item : EvalItem) : Nat :=
  match item.prediction with
  | Except.ok tri => spec_item_tp (item.ground_truth_tags.map (fun g => g.tag)) (orNone tri.tag1)
  | Except.error _ => 0

def spec_item_fp_of (item : EvalItem) : Nat :=
  match item.prediction with
  | Except.ok tri => spec_item_fp (item.ground_truth_tags.map (fun g => g.tag)) (orNone tri.tag1)
  | Except.error _ => 0

def spec_item_fn_of (item : EvalItem) : Nat :=
  match item.prediction with
  | Except.ok tri => spec_item_fn (item.ground_truth_tags.map (fun g => g.tag)) (orNone tri.tag1)
  | Except.error _ => 0

theorem tpfpfn_foldl_sums (padded : List (Option String)) (p1 : Option String)
    (ts : List String)
    (cnts : List (String × Nat) × List (String × Nat) × List (String × Nat)) :
    sum_values (ts.foldl (tpfpfn_update padded p1) cnts).1 =
      sum_values cnts.1 + ts.countP (fun t => (some t == p1) && padded.contains (some t)) ∧
    sum_values (ts.foldl (tpfpfn_update padded p1) cnts).2.1 =
      sum_values cnts.2.1 + ts.countP (fun t => (some t == p1) && !(padded.contains (some t))) ∧
    sum_values (ts.foldl (tpfpfn_update padded p1) cnts).2.2 =
      sum_values cnts.2.2 + ts.countP (fun t => !(some t == p1) && padded.contains (some t)) := by
  induction ts generalizing cnts with
  | nil => simp
  | cons t ts ih =>
    simp only [List.foldl_cons, List.countP_cons]
    obtain ⟨ih1, ih2, ih3⟩ := ih (tpfpfn_update padded p1 cnts t)
    rw [ih1, ih2, ih3]
    cases hp : (some t == p1) with
    | true =>
      cases hc : padded.contains (some t) with
      | true =>
        have hupd : tpfpfn_update padded p1 cnts t = (bump cnts.1 t, cnts.2.1, cnts.2.2) := by
          simp only [tpfpfn_update]
          rw [hp, hc]
          rfl
        rw [hupd]
        simp [sum_values_bump, hp, hc]
        all_goals omega
      | false =>
        have hupd : tpfpfn_update padded p1 cnts t = (cnts.1, bump cnts.2.1 t, cnts.2.2) := by
          simp only [tpfpfn_update]
          rw [hp, hc]
          rfl
        rw [hupd]
        simp [sum_values_bump, hp, hc]
        all_goals omega
    | false =>
      cases hc : padded.contains (some t) with
      | true =>
        have hupd : tpfpfn_update padded p1 cnts t = (cnts.1, cnts.2.1, bump cnts.2.2 t) := by
          simp only [tpfpfn_update]
          rw [hp, hc]
          rfl
        rw [hupd]
        simp [sum_values_bump, hp, hc]
        all_goals omega
      | false =>
        have hupd : tpfpfn_update padded p1 cnts t = cnts := by
          simp only [tpfpfn_update]
          rw [hp, hc]
          rfl
        rw [hupd]
        simp [hp, hc]

theorem contains_padded (gts : List GroundTruthTag) (t : String) :
    ((padded_gt gts).contains (some t) = true) ↔ t ∈ gts.map (fun g => g.tag) := by
  have hperm := sorted_gt_perm gts
  simp [padded_gt, List.mem_append, List.mem_replicate, List.mem_map, hperm.mem_iff]

theorem contains_padded_false (gts : List GroundTruthTag) (t : String) :
    ((padded_gt gts).contains (some t) = false) ↔ ¬ t ∈ gts.map (fun g => g.tag) := by
  rw [Bool.eq_false_iff]
  exact not_congr (contains_padded gts t)

theorem orNone_eq_some (x : Option String) (s : String) (h : orNone x = some s) :
    ¬ s = "" := by
  cases x with
  | none => simp [orNone, truthyStr] at h
  | some u =>
    by_cases hu : u = ""
    · simp [orNone, truthyStr, hu] at h
    · simp [orNone, truthyStr, hu] at h
      exact h ▸ hu

theorem mem_all_tags (gts : List GroundTruthTag) (x : Option String) (t : String)
    (h2 : ∀ g ∈ gts, ¬ g.tag = "") :
    t ∈ all_tags_in_dataset gts (orNone x) ↔
      t ∈ spec_S (gts.map (fun g => g.tag)) (orNone x) := by
  unfold all_tags_in_dataset spec_S
  rw [List.mem_dedup, List.mem_append, truthy_tags_eq gts h2,
    Finset.mem_union, List.mem_toFinset, Option.mem_toFinset]
  have hmem : t ∈ (sorted_gt gts).map (fun g => g.tag) ↔ t ∈ gts.map (fun g => g.tag) := by
    simp [List.mem_map, (sorted_gt_perm gts).mem_iff]
  rw [hmem]
  cases hx : orNone x with
  | none => simp [truthyStr]
  | some s =>
    have hs : ¬ s = "" := orNone_eq_some x s hx
    have htl : (if truthyStr (some s) then (some s).toList else []) = [s] := by
      simp [truthyStr, hs]
    rw [htl]
    simp only [List.mem_singleton, Option.mem_def, Option.some.injEq]
    constructor
    · rintro (hh | hh)
      · exact Or.inl hh
      · exact Or.inr hh.symm
    · rintro (hh | hh)
      · exact Or.inl hh
      · exact Or.inr hh.symm

theorem countP_eq_card_filter (l : List String) (hl : l.Nodup) (p : String → Bool)
    (s : Finset String) (hs : ∀ t, t ∈ l ↔ t ∈ s)
    (q : String → Prop) [DecidablePred q] (hq : ∀ t, p t = true ↔ q t) :
    l.countP p = (s.filter q).card := by
  have hsl : s = l.toFinset := by
    ext t
    rw [List.mem_toFinset, ← hs t]
  subst hsl
  have hfc : l.toFinset.filter (fun t => p t = true) = l.toFinset.filter q :=
    Finset.filter_congr (fun x _ => hq x)
  rw [← hfc, ← List.toFinset_filter, List.toFinset_card_of_nodup (hl.filter p),
    List.countP_eq_length_filter]

theorem process_item_ok_sums (st : RunState) (gts : List GroundTruthTag) (tri : TagTriple)
    (h2 : ∀ g ∈ gts, ¬ g.tag = "") :
    sum_values (process_item st ⟨gts, Except.ok tri⟩).tp_counts =
      sum_values st.tp_counts + spec_item_tp (gts.map (fun g => g.tag)) (orNone tri.tag1) ∧
    sum_values (process_item st ⟨gts, Except.ok tri⟩).fp_counts =
      sum_values st.fp_counts + spec_item_fp (gts.map (fun g => g.tag)) (orNone tri.tag1) ∧
    sum_values (process_item st ⟨gts, Except.ok tri⟩).fn_counts =
      sum_values st.fn_counts + spec_item_fn (gts.map (fun g => g.tag)) (orNone tri.tag1) := by
  obtain ⟨hf1, hf2, hf3⟩ := tpfpfn_foldl_sums (padded_gt gts) (orNone tri.tag1)
    (all_tags_in_dataset gts (orNone tri.tag1)) (st.tp_counts, st.fp_counts, st.fn_counts)
  refine ⟨?_, ?_, ?_⟩
  · rw [show (process_item st ⟨gts, Except.ok tri⟩).tp_counts =
      ((all_tags_in_dataset gts (orNone tri.tag1)).foldl
        (tpfpfn_update (padded_gt gts) (orNone tri.tag1))
        (st.tp_counts, st.fp_counts, st.fn_counts)).1 from rfl, hf1]
    congr 1
    refine countP_eq_card_filter _ (List.nodup_dedup _) _ _
      (fun u => mem_all_tags gts tri.tag1 u h2) _ (fun u => ?_)
    simp only [Bool.and_eq_true, beq_iff_eq, contains_padded]
    exact and_congr eq_comm Iff.rfl
  · rw [show (process_item st ⟨gts, Except.ok tri⟩).fp_counts =
      ((all_tags_in_dataset gts (orNone tri.tag1)).foldl
        (tpfpfn_update (padded_gt gts) (orNone tri.tag1))
        (st.tp_counts, st.fp_counts, st.fn_counts)).2.1 from rfl, hf2]
    congr 1
    refine countP_eq_card_filter _ (List.nodup_dedup _) _ _
      (fun u => mem_all_tags gts tri.tag1 u h2) _ (fun u => ?_)
    simp only [Bool.and_eq_true, beq_iff_eq, Bool.not_eq_true', contains_padded_false]
    exact and_congr eq_comm Iff.rfl
  · rw [show (process_item st ⟨gts, Except.ok tri⟩).fn_counts =
      ((all_tags_in_dataset gts (orNone tri.tag1)).foldl
        (tpfpfn_update (padded_gt gts) (orNone tri.tag1))
        (st.tp_counts, st.fp_counts, st.fn_counts)).2.2 from rfl, hf3]
    congr 1
    refine countP_eq_card_filter _ (List.nodup_dedup _) _ _
      (fun u => mem_all_tags gts tri.tag1 u h2) _ (fun u => ?_)
    simp only [Bool.and_eq_true, Bool.not_eq_true', beq_eq_false_iff_ne, contains_padded]
    exact and_congr ne_comm Iff.rfl

theorem foldl_tpfpfn_sums (items : List EvalItem) (st : RunState)
    (h : ∀ item ∈ items, ∀ g ∈ item.ground_truth_tags, ¬ g.tag = "") :
    sum_values ((items.foldl process_item st).tp_counts) =
      sum_values st.tp_counts + (items.map spec_item_tp_of).sum ∧
    sum_values ((items.foldl process_item st).fp_counts) =
      sum_values st.fp_counts + (items.map spec_item_fp_of).sum ∧
    sum_values ((items.foldl process_item st).fn_counts) =
      sum_values st.fn_counts + (items.map spec_item_fn_of).sum := by
  induction items generalizing st with
  | nil => simp
  | cons item items ih =>
    obtain ⟨gts, pred⟩ := item
    obtain ⟨ih1, ih2, ih3⟩ := ih (process_item st ⟨gts, pred⟩)
      (fun i hi => h i (List.mem_cons_of_mem _ hi))
    have hhd := h ⟨gts, pred⟩ (List.mem_cons_self _ _)
    simp only [List.foldl_cons, List.map_cons, List.sum_cons]
    cases pred with
    | error msg =>
      rw [ih1, ih2, ih3]
      refine ⟨?_, ?_, ?_⟩ <;> simp [process_item, spec_item_tp_of, spec_item_fp_of,
        spec_item_fn_of]
    | ok tri =>
      obtain ⟨d1, d2, d3⟩ := process_item_ok_sums st gts tri hhd
      rw [ih1, ih2, ih3, d1, d2, d3]
      refine ⟨?_, ?_, ?_⟩ <;>
        simp only [spec_item_tp_of, spec_item_fp_of, spec_item_fn_of] <;> omega

/-- C3: per item, only the single best prediction feeds TP/FP/FN: for each
tag `t` in the union of the item's ground-truth tags and `{tag1}` (if
present), `t` is a TP iff `t = tag1 ∧ t ∈ ground truth`, an FP iff
`t = tag1 ∧ t ∉ ground truth`, an FN iff `t ≠ tag1 ∧ t ∈ ground truth`
(items with a failed prediction contribute nothing); then
precision = ΣTP/(ΣTP+ΣFP) when the denominator is positive else 0,
recall likewise with ΣFN, and f1 = 2PR/(P+R) when P+R is positive else 0. -/
theorem claim3_theorem (items : List EvalItem)
    (h : ∀ item ∈ items, ∀ g ∈ item.ground_truth_tags, ¬ g.tag = "") :
    sum_values (run_items items).tp_counts = (items.map spec_item_tp_of).sum ∧
    sum_values (run_items items).fp_counts = (items.map spec_item_fp_of).sum ∧
    sum_values (run_items items).fn_counts = (items.map spec_item_fn_of).sum ∧
    (build_metrics (run_items items)).precision =
      (if 0 < sum_values (run_items items).tp_counts + sum_values (run_items items).fp_counts
       then (sum_values (run_items items).tp_counts : ℚ) /
         ((sum_values (run_items items).tp_counts + sum_values (run_items items).fp_counts : Nat) : ℚ)
       else 0) ∧
    (build_metrics (run_items items)).recall_score =
      (if 0 < sum_values (run_items items).tp_counts + sum_values (run_items items).fn_counts
       then (sum_values (run_items items).tp_counts : ℚ) /
         ((sum_values (run_items items).tp_counts + sum_values (run_items items).fn_counts : Nat) : ℚ)
       else 0) ∧
    (build_metrics (run_items items)).f1_score =
      (if 0 < (build_metrics (run_items items)).precision +
          (build_metrics (run_items items)).recall_score
       then 2 * (build_metrics (run_items items)).precision *
          (build_metrics (run_items items)).recall_score /
         ((build_metrics (run_items items)).precision +
          (build_metrics (run_items items)).recall_score)
       else 0) := by
  obtain ⟨h1, h2, h3⟩ := foldl_tpfpfn_sums items init_state h
  refine ⟨?_, ?_, ?_, rfl, rfl, rfl⟩
  · simpa [run_items, init_state, sum_values] using h1
  · simpa [run_items, init_state, sum_values] using h2
  · simpa [run_items, init_state, sum_values] using h3

/-- Concrete two-item dataset for the C3 witness: one rank-1 hit with an
extra ground-truth tag, one miss. -/
def c3_items : List EvalItem :=
  [⟨[⟨"MUSIK", 1⟩, ⟨"KUNST", 2⟩], Except.ok ⟨some "MUSIK", none, none, 1⟩⟩,
   ⟨[⟨"SPORT", 1⟩], Except.ok ⟨some "MAD", none, none, 1⟩⟩]

/-- Witness for C3: on `c3_items` the run yields ΣTP = 1 (MUSIK), ΣFP = 1
(MAD), ΣFN = 2 (KUNST, SPORT), matching the claim's per-item rule. -/
theorem claim3_theorem_witness :
    (sum_values (run_items c3_items).tp_counts = (c3_items.map spec_item_tp_of).sum ∧
     sum_values (run_items c3_items).fp_counts = (c3_items.map spec_item_fp_of).sum ∧
     sum_values (run_items c3_items).fn_counts = (c3_items.map spec_item_fn_of).sum ∧
     (build_metrics (run_items c3_items)).precision =
       (if 0 < sum_values (run_items c3_items).tp_counts + sum_values (run_items c3_items).fp_counts
        then (sum_values (run_items c3_items).tp_counts : ℚ) /
          ((sum_values (run_items c3_items).tp_counts + sum_values (run_items c3_items).fp_counts : Nat) : ℚ)
        else 0) ∧
     (build_metrics (run_items c3_items)).recall_score =
       (if 0 < sum_values (run_items c3_items).tp_counts + sum_values (run_items c3_items).fn_counts
        then (sum_values (run_items c3_items).tp_counts : ℚ) /
          ((sum_values (run_items c3_items).tp_counts + sum_values (run_items c3_items).fn_counts : Nat) : ℚ)
        else 0) ∧
     (build_metrics (run_items c3_items)).f1_score =
       (if 0 < (build_metrics (run_items c3_items)).precision +
           (build_metrics (run_items c3_items)).recall_score
        then 2 * (build_metrics (run_items c3_items)).precision *
           (build_metrics (run_items c3_items)).recall_score /
          ((build_metrics (run_items c3_items)).precision +
           (build_metrics (run_items c3_items)).recall_score)
        else 0)) ∧
    sum_values (run_items c3_items).tp_counts = 1 ∧
    sum_values (run_items c3_items).fp_counts = 1 ∧
    sum_values (run_items c3_items).fn_counts = 2 :=
  ⟨claim3_theorem c3_items (by decide), by decide, by decide, by decide⟩

/-- Stability of the embedded Python `sorted`: whenever all elements
satisfying `p` are mutually `r`-related, sorting does not disturb their
relative order — the `p`-filtered subsequence is unchanged. -/
theorem filter_insertionSort {α : Type} (r : α → α → Prop) [DecidableRel r]
    (p : α → Bool) (hp : ∀ a b, p a = true → p b = true → r a b) (l : List α) :
    (List.insertionSort r l).filter p = l.filter p := by
  have hfp : ∀ a ∈ l.filter p, p a = true := fun a ha => (List.mem_filter.mp ha).2
  have hpw : (l.filter p).Pairwise r :=
    List.pairwise_of_forall_mem_list (fun a ha b hb => hp a b (hfp a ha) (hfp b hb))
  have hsub : List.Sublist (l.filter p) (List.insertionSort r l) :=
    List.sublist_insertionSort hpw (List.filter_sublist l)
  have hsub2 : List.Sublist (l.filter p) ((List.insertionSort r l).filter p) := by
    have hgen := hsub.filter p
    rwa [List.filter_eq_self.mpr hfp] at hgen
  have hlen : (l.filter p).length = ((List.insertionSort r l).filter p).length := by
    rw [← List.countP_eq_length_filter, ← List.countP_eq_length_filter]
    exact ((List.perm_insertionSort r l).countP_eq p).symm
  exact (hsub2.eq_of_length hlen).symm

/-- C9: the best-performing categories are the first 3 names of the stable
descending sort of the per-tag accuracies (taken in `per_tag_total`
insertion order) and the worst-performing are the first 3 of the stable
ascending sort; both sorts are permutations, are sorted by accuracy, and —
stability — preserve, for every accuracy value, the original relative order
of the tags attaining it (so ties are broken by original iteration order,
never by tag name); per-tag accuracy is correct/total, 0 when total is 0. -/
theorem claim9_theorem (total correct : List (String × Nat)) :
    best_performing (tag_accuracy_list total correct) =
      ((List.insertionSort (fun a b => b.2 ≤ a.2) (tag_accuracy_list total correct)).take 3).map
        Prod.fst ∧
    worst_performing (tag_accuracy_list total correct) =
      ((List.insertionSort (fun a b => a.2 ≤ b.2) (tag_accuracy_list total correct)).take 3).map
        Prod.fst ∧
    List.Perm (List.insertionSort (fun a b => b.2 ≤ a.2) (tag_accuracy_list total correct))
      (tag_accuracy_list total correct) ∧
    List.Perm (List.insertionSort (fun a b => a.2 ≤ b.2) (tag_accuracy_list total correct))
      (tag_accuracy_list total correct) ∧
    (List.insertionSort (fun a b => b.2 ≤ a.2) (tag_accuracy_list total correct)).Pairwise
      (fun a b => b.2 ≤ a.2) ∧
    (List.insertionSort (fun a b => a.2 ≤ b.2) (tag_accuracy_list total correct)).Pairwise
      (fun a b => a.2 ≤ b.2) ∧
    (∀ v : ℚ,
      (List.insertionSort (fun a b => b.2 ≤ a.2) (tag_accuracy_list total correct)).filter
          (fun a => a.2 == v) =
        (tag_accuracy_list total correct).filter (fun a => a.2 == v)) ∧
    (∀ v : ℚ,
      (List.insertionSort (fun a b => a.2 ≤ b.2) (tag_accuracy_list total correct)).filter
          (fun a => a.2 == v) =
        (tag_accuracy_list total correct).filter (fun a => a.2 == v)) ∧
    tag_accuracy_list total correct =
      total.map (fun p => (p.1, if 0 < p.2 then (lookupD correct p.1 : ℚ) / (p.2 : ℚ) else 0)) := by
  refine ⟨rfl, rfl, List.perm_insertionSort _ _, List.perm_insertionSort _ _,
    ?_, ?_, ?_, ?_, rfl⟩
  · haveI : IsTotal (String × ℚ) (fun a b => b.2 ≤ a.2) := ⟨fun a b => le_total b.2 a.2⟩
    haveI : IsTrans (String × ℚ) (fun a b => b.2 ≤ a.2) :=
      ⟨fun _ _ _ h1 h2 => le_trans h2 h1⟩
    exact List.sorted_insertionSort _ _
  · haveI : IsTotal (String × ℚ) (fun a b => a.2 ≤ b.2) := ⟨fun a b => le_total a.2 b.2⟩
    haveI : IsTrans (String × ℚ) (fun a b => a.2 ≤ b.2) :=
      ⟨fun _ _ _ h1 h2 => le_trans h1 h2⟩
    exact List.sorted_insertionSort _ _
  · intro v
    refine filter_insertionSort _ _ (fun a b ha hb => ?_) _
    have ha' : a.2 = v := by simpa using ha
    have hb' : b.2 = v := by simpa using hb
    rw [ha', hb']
  · intro v
    refine filter_insertionSort _ _ (fun a b ha hb => ?_) _
    have ha' : a.2 = v := by simpa using ha
    have hb' : b.2 = v := by simpa using hb
    rw [ha', hb']

end EventTagger
